import Mathlib

/-!
Shallow embedding of the pc-sync integration server (src/index.js).

Environment variables are modelled as `Option String` (absent = `none`);
JavaScript string falsiness collapses the empty string and `undefined`,
which the definitions below reflect at each use site exactly as the
source tests them.  Clock readings (`Date.now()`) are passed explicitly
as an `Int` parameter `now`; outbound HTTP calls are passed as an
`Except Unit TokenResponse` oracle (the `error` case standing for a
thrown axios error: network failure or non-2xx), and each function
reports how many such calls it performed.
-/

namespace PcSync

/-- `stripQuotes` (src/index.js lines 17-19):
`(v || "").replace(/^"|"$/g, "")` — treats a missing value as the empty
string, then deletes one leading double quote (if the first character is
one) and one trailing double quote (if the last remaining character is
one).  The global regex anchors match each original position at most
once, which is exactly one conditional head-drop followed by one
conditional last-drop. -/
def stripQuotes (v : Option String) : String :=
  let s := (v.getD "").toList
  let s1 := if s.head? = some '"' then s.tail else s
  let s2 := if s1.getLast? = some '"' then s1.dropLast else s1
  String.mk s2

/-- The in-memory token cache (src/index.js lines 171-176).  The source
initialises `accessToken`/`refreshToken` from env vars through
`stripQuotes` and `expiresAtMs` to 0; here the cache is threaded
explicitly through the functions that read or mutate it.  An empty
string models a missing token (JS falsiness). -/
structure TokenCache where
  accessToken : String
  refreshToken : String
  expiresAtMs : Int
deriving Repr, DecidableEq

/-- Parsed JSON body of a successful token-endpoint response
(`access_token`, `refresh_token`, `expires_in` destructured at
src/index.js lines 116 and 207).  `refresh_token` uses `""` for an
absent/falsy value (the source only tests it for truthiness and
inequality); `expires_in` is `none` when the field is absent. -/
structure TokenResponse where
  access_token : String
  refresh_token : String
  expires_in : Option Int
deriving Repr, DecidableEq

/-- The errors thrown by the token-handling functions, one constructor
per `throw new Error(...)` site plus one for a propagated axios
failure. -/
inductive PcoError where
  | missingAppCreds
  | missingRefreshToken
  | missingAccessToken
  | httpFailure
deriving Repr, DecidableEq

deriving instance DecidableEq for Except

/-- Result of a token-handling call: the returned string or the thrown
error, the token cache after the call, and the number of outbound HTTP
requests issued during the call. -/
structure TokenCallResult where
  result : Except PcoError String
  cache : TokenCache
  httpCalls : Nat
deriving Repr, DecidableEq

/-- `Number(expires_in || 3600)` (src/index.js line 211): an absent or
zero `expires_in` falls back to 3600 seconds. -/
def reportedLifetimeSeconds (expires_in : Option Int) : Int :=
  match expires_in with
  | none => 3600
  | some n => if n = 0 then 3600 else n

/-- `refreshAccessToken` (src/index.js lines 178-221).  Checks client
credentials and the cached refresh token, performs one POST to the
token endpoint (the `http` oracle), and on success overwrites
`accessToken`, sets `expiresAtMs` to now + lifetime·1000 − 60000, and
replaces `refreshToken` only when the response carries a truthy value
different from the cached one.  A thrown axios error propagates before
any mutation. -/
def refreshAccessToken (appIdEnv secretEnv : Option String) (now : Int)
    (http : Except Unit TokenResponse) (cache : TokenCache) : TokenCallResult :=
  let PCO_APP_ID := stripQuotes appIdEnv
  let PCO_SECRET := stripQuotes secretEnv
  if PCO_APP_ID = "" ∨ PCO_SECRET = "" then
    ⟨.error .missingAppCreds, cache, 0⟩
  else if cache.refreshToken = "" then
    ⟨.error .missingRefreshToken, cache, 0⟩
  else
    match http with
    | .error _ => ⟨.error .httpFailure, cache, 1⟩
    | .ok resp =>
      let cache1 : TokenCache :=
        { cache with
          accessToken := resp.access_token
          expiresAtMs := now + reportedLifetimeSeconds resp.expires_in * 1000 - 60000 }
      let cache2 : TokenCache :=
        if resp.refresh_token ≠ "" ∧ resp.refresh_token ≠ cache.refreshToken then
          { cache1 with refreshToken := resp.refresh_token }
        else cache1
      ⟨.ok cache2.accessToken, cache2, 1⟩

/-- `getPcoAccessToken` (src/index.js lines 223-240).  Returns the
cached token when it is truthy, `expiresAtMs` is truthy (≠ 0) and not
yet reached; otherwise refreshes when a refresh token is cached;
otherwise falls back to the cached access token or throws when there is
none. -/
def getPcoAccessToken (appIdEnv secretEnv : Option String) (now : Int)
    (http : Except Unit TokenResponse) (cache : TokenCache) : TokenCallResult :=
  if cache.accessToken ≠ "" ∧ cache.expiresAtMs ≠ 0 ∧ now < cache.expiresAtMs then
    ⟨.ok cache.accessToken, cache, 0⟩
  else if cache.refreshToken ≠ "" then
    refreshAccessToken appIdEnv secretEnv now http cache
  else if cache.accessToken = "" then
    ⟨.error .missingAccessToken, cache, 0⟩
  else
    ⟨.ok cache.accessToken, cache, 0⟩

/-- Responses of the `/oauth/callback` handler (src/index.js lines
84-141): 400 for a missing code, 500 for missing env vars, the
debug-gated token dump page, the plain success page, and the 500
"OAuth failed" page when the exchange throws. -/
inductive CallbackResponse where
  | missingCode
  | missingEnv
  | tokenDump (accessToken refreshToken : String) (expires_in : Option Int)
  | success
  | oauthFailed
deriving Repr, DecidableEq

/-- `/oauth/callback` handler (src/index.js lines 84-141), with the
code-exchange POST as the `http` oracle.  The handler destructures the
token response and renders a page; it never assigns to the token cache,
so the cache is returned unchanged on every path. -/
def oauthCallback (code : Option String)
    (appIdEnv secretEnv redirectEnv showTokensEnv : Option String)
    (http : Except Unit TokenResponse) (cache : TokenCache) :
    CallbackResponse × TokenCache :=
  if code.getD "" = "" then (.missingCode, cache)
  else
    let PCO_APP_ID := stripQuotes appIdEnv
    let PCO_SECRET := stripQuotes secretEnv
    let PCO_REDIRECT_URI := stripQuotes redirectEnv
    if PCO_APP_ID = "" ∨ PCO_SECRET = "" ∨ PCO_REDIRECT_URI = "" then
      (.missingEnv, cache)
    else
      match http with
      | .error _ => (.oauthFailed, cache)
      | .ok resp =>
        if stripQuotes showTokensEnv = "true" then
          (.tokenDump resp.access_token resp.refresh_token resp.expires_in, cache)
        else
          (.success, cache)

/-- `attributes` object of one event from the Events Service response
(src/index.js line 280). -/
structure PcoEventAttributes where
  name : Option String
deriving Repr, DecidableEq

/-- One element of `pcoResp.data.data` (src/index.js line 280). -/
structure PcoEvent where
  attributes : Option PcoEventAttributes
deriving Repr, DecidableEq

/-- `pcoResp.data?.data?.[0]?.attributes?.name || null`
(src/index.js line 280): optional chaining on the first event, with
`|| null` collapsing any falsy name (absent, or the empty string) to
null. -/
def firstEventName (events : List PcoEvent) : Option String :=
  match events.head? with
  | none => none
  | some ev =>
    match ev.attributes with
    | none => none
    | some attrs =>
      match attrs.name with
      | none => none
      | some n => if n = "" then none else some n

/-- Success body of `/sync` (src/index.js lines 282-288), restricted to
the data-dependent fields. -/
structure SyncSuccessBody where
  recordCount : Nat
  firstEventName : Option String
deriving Repr, DecidableEq

/-- Responses of the `/sync` handler (src/index.js lines 255-297). -/
inductive SyncResponse where
  | misconfigured
  | unauthorized
  | success (body : SyncSuccessBody)
  | syncError
deriving Repr, DecidableEq

/-- The `try` block of `/sync` (src/index.js lines 266-297): the
Airtable read (record count, or a thrown error) and the Events Service
read (event list, or a thrown error) are oracles; any throw lands in
the `catch` and yields the 500 error body. -/
def syncLogic (airtable : Except Unit Nat)
    (pco : Except Unit (List PcoEvent)) : SyncResponse :=
  match airtable with
  | .error _ => .syncError
  | .ok n =>
    match pco with
    | .error _ => .syncError
    | .ok events => .success ⟨n, firstEventName events⟩

/-- `/sync` handler (src/index.js lines 255-264 for the auth gate):
expected secret from `stripQuotes(process.env.SYNC_SECRET)`, provided
secret from the raw `x-sync-secret` header (`none` when absent,
standing for `undefined`); `!expectedSecret` gives 500,
`providedSecret !== expectedSecret` gives 401, and only an exact match
reaches the sync logic. -/
def syncHandler (syncSecretEnv : Option String) (header : Option String)
    (airtable : Except Unit Nat)
    (pco : Except Unit (List PcoEvent)) : SyncResponse :=
  let expectedSecret := stripQuotes syncSecretEnv
  if expectedSecret = "" then .misconfigured
  else if header ≠ some expectedSecret then .unauthorized
  else syncLogic airtable pco

/-- UTF-8 bytes of a character, as natural numbers (the
`application/x-www-form-urlencoded` serializer percent-encodes the
UTF-8 bytes of each character outside its safe set). -/
def utf8Bytes (c : Char) : List Nat :=
  let n := c.toNat
  if n < 128 then [n]
  else if n < 2048 then
    [192 + n / 64, 128 + n % 64]
  else if n < 65536 then
    [224 + n / 4096, 128 + (n / 64) % 64, 128 + n % 64]
  else
    [240 + n / 262144, 128 + (n / 4096) % 64, 128 + (n / 64) % 64, 128 + n % 64]

/-- Uppercase hexadecimal digit for a value below 16. -/
def hexUpper (n : Nat) : Char :=
  if n < 10 then Char.ofNat (48 + n) else Char.ofNat (55 + n)

/-- Characters `URLSearchParams.toString()` leaves unescaped: ASCII
alphanumerics and `*`, `-`, `.`, `_`. -/
def isFormSafe (c : Char) : Bool :=
  c.isAlphanum || c = '*' || c = '-' || c = '.' || c = '_'

/-- `URLSearchParams` value serialization (used by
`params.toString()` at src/index.js line 73): space becomes `+`, safe
characters pass through, every other character is percent-encoded
byte-wise in uppercase hex. -/
def formUrlEncode (s : String) : String :=
  String.mk (s.toList.flatMap fun c =>
    if c = ' ' then ['+']
    else if isFormSafe c then [c]
    else (utf8Bytes c).flatMap fun b => ['%', hexUpper (b / 16), hexUpper (b % 16)])

/-- The authorize URL built at src/index.js lines 65-73:
`URLSearchParams` serializes the five entries in insertion order
(`client_id`, `redirect_uri`, `response_type`, `scope`, `state`);
`response_type=code` and `scope=calendar` encode to themselves. -/
def authorizeUrl (clientId redirectUri state : String) : String :=
  "https://api.planningcenteronline.com/oauth/authorize?client_id=" ++
    formUrlEncode clientId ++
    "&redirect_uri=" ++ formUrlEncode redirectUri ++
    "&response_type=code&scope=calendar&state=" ++ formUrlEncode state

/-- Responses of `/oauth/start` (src/index.js lines 52-81). -/
inductive StartResponse where
  | configError (hasPCO_APP_ID hasPCO_REDIRECT_URI : Bool)
  | debugJson (authUrl : String)
  | redirect (authUrl : String)
deriving Repr, DecidableEq

/-- `/oauth/start` handler (src/index.js lines 52-81): quote-stripped
client id and redirect URI; 500 with the two presence booleans when
either is falsy; otherwise the authorize URL is returned as JSON when
`debug=1` and as a 302 redirect otherwise.  `state` is
`String(Date.now())`, passed here as a parameter. -/
def oauthStart (appIdEnv redirectEnv : Option String)
    (debugQuery : Option String) (state : String) : StartResponse :=
  let PCO_APP_ID := stripQuotes appIdEnv
  let PCO_REDIRECT_URI := stripQuotes redirectEnv
  if PCO_APP_ID = "" ∨ PCO_REDIRECT_URI = "" then
    .configError (PCO_APP_ID != "") (PCO_REDIRECT_URI != "")
  else if debugQuery = some "1" then
    .debugJson (authorizeUrl PCO_APP_ID PCO_REDIRECT_URI state)
  else
    .redirect (authorizeUrl PCO_APP_ID PCO_REDIRECT_URI state)

/-- `hay` contains `needle` as a contiguous substring. -/
def strContains (hay needle : String) : Prop :=
  needle.toList <:+: hay.toList

instance (hay needle : String) : Decidable (strContains hay needle) :=
  List.decidableInfix needle.toList hay.toList

/-! ## Helper lemmas -/

theorem toList_mk (l : List Char) : (String.mk l).toList = l := rfl

theorem toList_append (s t : String) : (s ++ t).toList = s.toList ++ t.toList :=
  String.data_append s t

/-- On a successful HTTP response, `refreshAccessToken` with configured
client credentials and a cached refresh token returns the fresh access
token, sets the expiry from the reported lifetime, and keeps or
replaces the refresh token according to the response. -/
theorem refreshAccessToken_ok_eq (appIdEnv secretEnv : Option String) (now : Int)
    (resp : TokenResponse) (cache : TokenCache)
    (hid : stripQuotes appIdEnv ≠ "") (hsec : stripQuotes secretEnv ≠ "")
    (hrt : cache.refreshToken ≠ "") :
    refreshAccessToken appIdEnv secretEnv now (.ok resp) cache =
      ⟨.ok resp.access_token,
       { accessToken := resp.access_token
         refreshToken :=
           if resp.refresh_token ≠ "" ∧ resp.refresh_token ≠ cache.refreshToken then
             resp.refresh_token
           else cache.refreshToken
         expiresAtMs := now + reportedLifetimeSeconds resp.expires_in * 1000 - 60000 },
       1⟩ := by
  simp only [refreshAccessToken, hid, hsec, or_self, false_or, or_false, if_neg, hrt,
    ite_false, ite_true]
  split_ifs with h <;> simp [h]

/-! ## Claim theorems -/

/-- C4: whenever the current time is strictly below the cached
`expiresAtMs` and a non-empty access token is cached, `getPcoAccessToken`
returns the cached token unchanged, performs no HTTP call, and leaves
the token cache unmodified (for any behaviour of the HTTP oracle). -/
theorem getPcoAccessToken_cached_fresh (appIdEnv secretEnv : Option String) (now : Int)
    (http : Except Unit TokenResponse) (cache : TokenCache)
    (hnow : 0 ≤ now) (hat : cache.accessToken ≠ "") (hexp : now < cache.expiresAtMs) :
    getPcoAccessToken appIdEnv secretEnv now http cache =
      ⟨.ok cache.accessToken, cache, 0⟩ := by
  have hne : cache.expiresAtMs ≠ 0 := by omega
  simp [getPcoAccessToken, hat, hne, hexp]

/-- C4 witness. -/
theorem getPcoAccessToken_cached_fresh_witness :
    getPcoAccessToken (some "app") (some "sec") 5 (.error ())
        ⟨"tok", "refr", 10⟩ =
      ⟨.ok "tok", ⟨"tok", "refr", 10⟩, 0⟩ :=
  getPcoAccessToken_cached_fresh (some "app") (some "sec") 5 (.error ())
    ⟨"tok", "refr", 10⟩ (by decide) (by decide) (by decide)

/-- C5: with no cached access token and no cached refresh token,
`getPcoAccessToken` throws the missing-access-token error, performs no
HTTP call, and leaves the cache unchanged. -/
theorem getPcoAccessToken_noCredentials (appIdEnv secretEnv : Option String) (now : Int)
    (http : Except Unit TokenResponse) (cache : TokenCache)
    (hat : cache.accessToken = "") (hrt : cache.refreshToken = "") :
    getPcoAccessToken appIdEnv secretEnv now http cache =
      ⟨.error .missingAccessToken, cache, 0⟩ := by
  simp [getPcoAccessToken, hat, hrt]

/-- C5 witness. -/
theorem getPcoAccessToken_noCredentials_witness :
    getPcoAccessToken (some "app") (some "sec") 5 (.error ()) ⟨"", "", 0⟩ =
      ⟨.error .missingAccessToken, ⟨"", "", 0⟩, 0⟩ :=
  getPcoAccessToken_noCredentials (some "app") (some "sec") 5 (.error ())
    ⟨"", "", 0⟩ rfl rfl

/-- C8: when the refresh HTTP call throws (network failure or non-2xx),
`refreshAccessToken` fails and the token cache is returned entirely
unchanged — every mutation in the source occurs only after a successful
response. -/
theorem refreshAccessToken_failure_atomic (appIdEnv secretEnv : Option String)
    (now : Int) (cache : TokenCache) :
    (refreshAccessToken appIdEnv secretEnv now (.error ()) cache).cache = cache ∧
    ∃ e, (refreshAccessToken appIdEnv secretEnv now (.error ()) cache).result =
      .error e := by
  unfold refreshAccessToken
  by_cases h1 : stripQuotes appIdEnv = "" ∨ stripQuotes secretEnv = "" <;>
    by_cases h2 : cache.refreshToken = "" <;> simp [h1, h2]

/-- C2: the `/sync` gate.  With the configured secret stripped to empty
the handler answers 500 (misconfigured) for every header and payload;
with a configured secret, every header other than an exact match
(absent included) gets 401; an exact match proceeds to the sync
logic. -/
theorem syncHandler_auth_gate (syncSecretEnv header : Option String)
    (airtable : Except Unit Nat) (pco : Except Unit (List PcoEvent)) :
    (stripQuotes syncSecretEnv = "" →
      syncHandler syncSecretEnv header airtable pco = .misconfigured) ∧
    (stripQuotes syncSecretEnv ≠ "" → header ≠ some (stripQuotes syncSecretEnv) →
      syncHandler syncSecretEnv header airtable pco = .unauthorized) ∧
    (stripQuotes syncSecretEnv ≠ "" → header = some (stripQuotes syncSecretEnv) →
      syncHandler syncSecretEnv header airtable pco = syncLogic airtable pco) := by
  refine ⟨fun h => by simp [syncHandler, h],
    fun h hm => by simp [syncHandler, h, hm],
    fun h hm => by simp [syncHandler, h, hm]⟩

/-- C2 witness. -/
theorem syncHandler_auth_gate_witness :
    syncHandler (some "\"s3cret\"") (some "s3cret") (.ok 3) (.ok []) =
      syncLogic (.ok 3) (.ok []) :=
  (syncHandler_auth_gate (some "\"s3cret\"") (some "s3cret") (.ok 3) (.ok [])).2.2
    (by decide) (by decide)

/-- C3: when the cached expiry has passed, a refresh token is cached and
client id/secret are configured, `getPcoAccessToken` makes exactly one
HTTP call; on success it returns the refreshed access token, sets
`expiresAtMs` to now + reported lifetime (ms) − 60000, and replaces the
cached refresh token exactly when the response carries a non-empty
value different from the cached one. -/
theorem getPcoAccessToken_refresh_spec (appIdEnv secretEnv : Option String) (now : Int)
    (resp : TokenResponse) (cache : TokenCache)
    (hexp : cache.expiresAtMs ≤ now)
    (hrt : cache.refreshToken ≠ "")
    (hid : stripQuotes appIdEnv ≠ "") (hsec : stripQuotes secretEnv ≠ "") :
    (getPcoAccessToken appIdEnv secretEnv now (.ok resp) cache).httpCalls = 1 ∧
    (getPcoAccessToken appIdEnv secretEnv now (.ok resp) cache).result =
      .ok resp.access_token ∧
    (getPcoAccessToken appIdEnv secretEnv now (.ok resp) cache).cache.accessToken =
      resp.access_token ∧
    (getPcoAccessToken appIdEnv secretEnv now (.ok resp) cache).cache.expiresAtMs =
      now + reportedLifetimeSeconds resp.expires_in * 1000 - 60000 ∧
    (getPcoAccessToken appIdEnv secretEnv now (.ok resp) cache).cache.refreshToken =
      (if resp.refresh_token ≠ "" ∧ resp.refresh_token ≠ cache.refreshToken then
        resp.refresh_token
      else cache.refreshToken) := by
  have hlt : ¬ now < cache.expiresAtMs := by omega
  have hget : getPcoAccessToken appIdEnv secretEnv now (.ok resp) cache =
      refreshAccessToken appIdEnv secretEnv now (.ok resp) cache := by
    simp [getPcoAccessToken, hlt, hrt]
  rw [hget, refreshAccessToken_ok_eq appIdEnv secretEnv now resp cache hid hsec hrt]
  exact ⟨rfl, rfl, rfl, rfl, rfl⟩

/-- C3 witness. -/
theorem getPcoAccessToken_refresh_spec_witness :
    (getPcoAccessToken (some "app") (some "sec") 100
        (.ok ⟨"fresh", "r2", some 7200⟩) ⟨"old", "r1", 50⟩).httpCalls = 1 ∧
    (getPcoAccessToken (some "app") (some "sec") 100
        (.ok ⟨"fresh", "r2", some 7200⟩) ⟨"old", "r1", 50⟩).result = .ok "fresh" ∧
    (getPcoAccessToken (some "app") (some "sec") 100
        (.ok ⟨"fresh", "r2", some 7200⟩) ⟨"old", "r1", 50⟩).cache.accessToken = "fresh" ∧
    (getPcoAccessToken (some "app") (some "sec") 100
        (.ok ⟨"fresh", "r2", some 7200⟩) ⟨"old", "r1", 50⟩).cache.expiresAtMs =
      100 + reportedLifetimeSeconds (some 7200) * 1000 - 60000 ∧
    (getPcoAccessToken (some "app") (some "sec") 100
        (.ok ⟨"fresh", "r2", some 7200⟩) ⟨"old", "r1", 50⟩).cache.refreshToken =
      (if ("r2" : String) ≠ "" ∧ ("r2" : String) ≠ "r1" then "r2" else "r1") :=
  getPcoAccessToken_refresh_spec (some "app") (some "sec") 100
    ⟨"fresh", "r2", some 7200⟩ ⟨"old", "r1", 50⟩
    (by decide) (by decide) (by decide) (by decide)

/-- C9: with a successful refresh response, an absent or zero
`expires_in` defaults the lifetime to 3600 seconds, giving
`expiresAtMs` = now + 3600·1000 − 60000; a non-zero reported lifetime
n (in seconds) gives now + n·1000 − 60000. -/
theorem refreshAccessToken_lifetime (appIdEnv secretEnv : Option String) (now : Int)
    (resp : TokenResponse) (cache : TokenCache)
    (hid : stripQuotes appIdEnv ≠ "") (hsec : stripQuotes secretEnv ≠ "")
    (hrt : cache.refreshToken ≠ "") :
    ((resp.expires_in = none ∨ resp.expires_in = some 0) →
      (refreshAccessToken appIdEnv secretEnv now (.ok resp) cache).cache.expiresAtMs =
        now + 3600 * 1000 - 60000) ∧
    (∀ n : Int, resp.expires_in = some n → n ≠ 0 →
      (refreshAccessToken appIdEnv secretEnv now (.ok resp) cache).cache.expiresAtMs =
        now + n * 1000 - 60000) := by
  rw [refreshAccessToken_ok_eq appIdEnv secretEnv now resp cache hid hsec hrt]
  constructor
  · rintro (h | h) <;> simp [h, reportedLifetimeSeconds]
  · intro n hn hnz
    simp [hn, reportedLifetimeSeconds, hnz]

/-- C9 witness. -/
theorem refreshAccessToken_lifetime_witness :
    (refreshAccessToken (some "app") (some "sec") 100
        (.ok ⟨"fresh", "", none⟩) ⟨"old", "r1", 50⟩).cache.expiresAtMs =
      100 + 3600 * 1000 - 60000 :=
  (refreshAccessToken_lifetime (some "app") (some "sec") 100
    ⟨"fresh", "", none⟩ ⟨"old", "r1", 50⟩
    (by decide) (by decide) (by decide)).1 (Or.inl rfl)

/-- C1 counterexample: a successful authorization-code exchange in the
callback handler does not store the received pair into the token
cache — the cache after the handler equals the cache before it, and a
subsequent `getPcoAccessToken` still returns the old cached token, not
the newly obtained one. -/
theorem oauthCallback_stores_tokens_cex :
    (oauthCallback (some "authcode") (some "app") (some "sec") (some "https://cb") none
        (.ok ⟨"newAccess", "newRefresh", some 7200⟩)
        ⟨"oldAccess", "", 4102444800000⟩) =
      (.success, ⟨"oldAccess", "", 4102444800000⟩) ∧
    (getPcoAccessToken (some "app") (some "sec") 1700000000000 (.error ())
        ⟨"oldAccess", "", 4102444800000⟩).result = .ok "oldAccess" ∧
    "oldAccess" ≠ "newAccess" := by
  refine ⟨rfl, rfl, by decide⟩

/-- C1 amended: the `/oauth/callback` handler leaves the token cache
unchanged on every path (including a successful exchange); the received
pair is only rendered in the response, never stored. -/
theorem oauthCallback_cache_unchanged (code appIdEnv secretEnv redirectEnv
    showTokensEnv : Option String) (http : Except Unit TokenResponse)
    (cache : TokenCache) :
    (oauthCallback code appIdEnv secretEnv redirectEnv showTokensEnv http cache).2 =
      cache := by
  unfold oauthCallback
  rcases http with _ | resp <;> dsimp only <;> split_ifs <;> rfl

/-- C6 counterexample: with a non-empty events list whose first event has
the name field present with the string value `""`, the sync result's
`firstEventName` is `none`, not `some ""` — the `|| null` in the source
collapses a present-but-empty name, so the name is not reproduced as-is
for every string value. -/
theorem syncLogic_firstEventName_cex :
    syncLogic (.ok 3) (.ok [⟨some ⟨some ""⟩⟩]) = .success ⟨3, none⟩ ∧
    firstEventName [⟨some ⟨some ""⟩⟩] = none ∧
    (none : Option String) ≠ some "" := by
  refine ⟨rfl, rfl, by decide⟩

/-- C6 amended: on a successful sync run the body's `firstEventName` is
`firstEventName events`; it reproduces the first event's name exactly
when that name is present and non-empty, and is `none` when the list is
empty, the attributes or name field is missing, or the name is the
empty string. -/
theorem syncLogic_firstEventName_spec (n : Nat) (events : List PcoEvent) :
    syncLogic (.ok n) (.ok events) = .success ⟨n, firstEventName events⟩ ∧
    (events = [] → firstEventName events = none) ∧
    (∀ ev rest, events = ev :: rest →
      (ev.attributes = none → firstEventName events = none) ∧
      ∀ attrs, ev.attributes = some attrs →
        (attrs.name = none → firstEventName events = none) ∧
        (attrs.name = some "" → firstEventName events = none) ∧
        ∀ s, attrs.name = some s → s ≠ "" → firstEventName events = some s) := by
  refine ⟨rfl, fun h => by simp [h, firstEventName], fun ev rest hev => ?_⟩
  subst hev
  refine ⟨fun h => by simp [firstEventName, h], fun attrs hattrs => ?_⟩
  refine ⟨fun h => by simp [firstEventName, hattrs, h],
    fun h => by simp [firstEventName, hattrs, h],
    fun s hs hne => by simp [firstEventName, hattrs, hs, hne]⟩

/-- C6 witness. -/
theorem syncLogic_firstEventName_spec_witness :
    syncLogic (.ok 3) (.ok [⟨some ⟨some "Sunday Service"⟩⟩]) =
      .success ⟨3, firstEventName [⟨some ⟨some "Sunday Service"⟩⟩]⟩ ∧
    firstEventName [⟨some ⟨some "Sunday Service"⟩⟩] = some "Sunday Service" := by
  have h := syncLogic_firstEventName_spec 3 [⟨some ⟨some "Sunday Service"⟩⟩]
  exact ⟨h.1, (((h.2.2 _ _ rfl).2 _ rfl).2.2) _ rfl (by decide)⟩

/-- C10: `stripQuotes` maps a missing or empty value to the empty string;
it removes exactly one leading and one trailing double quote when both
are present (preserving every interior character, quotes included), an
unmatched single leading or trailing quote is also removed, a string
with neither is returned unchanged, and the function is not idempotent
on doubly-wrapped inputs. -/
theorem stripQuotes_spec :
    stripQuotes none = "" ∧
    stripQuotes (some "") = "" ∧
    (∀ m : List Char,
      stripQuotes (some (String.mk ('"' :: m ++ ['"']))) = String.mk m) ∧
    (∀ m : List Char, m.getLast? ≠ some '"' →
      stripQuotes (some (String.mk ('"' :: m))) = String.mk m) ∧
    (∀ m : List Char, m.head? ≠ some '"' →
      stripQuotes (some (String.mk (m ++ ['"']))) = String.mk m) ∧
    (∀ m : List Char, m.head? ≠ some '"' → m.getLast? ≠ some '"' →
      stripQuotes (some (String.mk m)) = String.mk m) ∧
    stripQuotes (some "\"\"a\"\"") = "\"a\"" ∧
    stripQuotes (some (stripQuotes (some "\"\"a\"\""))) ≠
      stripQuotes (some "\"\"a\"\"") := by
  refine ⟨rfl, rfl, fun m => ?_, fun m h => ?_, fun m h => ?_, fun m h1 h2 => ?_,
    by decide, by decide⟩
  · simp [stripQuotes, toList_mk]
  · simp [stripQuotes, toList_mk, h]
  · rcases m with _ | ⟨c, m⟩
    · rfl
    · have hc : c ≠ '"' := by
        intro hceq
        exact h (by simp [hceq])
      have e1 : (c :: (m ++ ['"'])).getLast? = some '"' := by
        rw [show c :: (m ++ ['"']) = (c :: m) ++ ['"'] from rfl, List.getLast?_concat]
      have e2 : (c :: (m ++ ['"'])).dropLast = c :: m := by
        rw [show c :: (m ++ ['"']) = (c :: m) ++ ['"'] from rfl, List.dropLast_concat]
      simp [stripQuotes, toList_mk, hc, e1, e2]
  · rcases m with _ | ⟨c, m⟩
    · rfl
    · have hc : c ≠ '"' := by
        intro hceq
        exact h1 (by simp [hceq])
      simp [stripQuotes, toList_mk, hc, h2]

/-- C10 witness. -/
theorem stripQuotes_spec_witness :
    stripQuotes (some (String.mk ('"' :: ['a', 'b']))) = String.mk ['a', 'b'] :=
  stripQuotes_spec.2.2.2.1 ['a', 'b'] (by decide)

set_option maxRecDepth 40000 in
/-- C7 counterexample: with the configured client id `"a b"` (and a
valid redirect URI), `/oauth/start?debug=1` returns the debug JSON, but
its `authUrl` does not contain the configured client id as a
substring — `URLSearchParams` serializes the space as `+`, so the URL
carries `a+b`, not `a b`. -/
theorem oauthStart_debug_cex :
    oauthStart (some "a b") (some "https://cb.example/x") (some "1") "99" =
      .debugJson (authorizeUrl "a b" "https://cb.example/x" "99") ∧
    ¬ strContains (authorizeUrl "a b" "https://cb.example/x" "99") "a b" ∧
    strContains (authorizeUrl "a b" "https://cb.example/x" "99") "a+b" := by
  refine ⟨rfl, by decide, by decide⟩

/-- C7 amended: with `debug=1` and both values configured after
quote-stripping, `/oauth/start` returns the debug JSON (no redirect)
whose `authUrl` contains the form-URL-encoded client id and the
form-URL-encoded redirect URI (for values made only of unescaped
characters this is the raw value); with either value absent it returns
the 500 config-error body whose booleans report which values are
present, without redirecting. -/
theorem oauthStart_spec (appIdEnv redirectEnv dbg : Option String) (state : String) :
    (stripQuotes appIdEnv ≠ "" → stripQuotes redirectEnv ≠ "" → dbg = some "1" →
      oauthStart appIdEnv redirectEnv dbg state =
        .debugJson (authorizeUrl (stripQuotes appIdEnv) (stripQuotes redirectEnv) state) ∧
      strContains (authorizeUrl (stripQuotes appIdEnv) (stripQuotes redirectEnv) state)
        (formUrlEncode (stripQuotes appIdEnv)) ∧
      strContains (authorizeUrl (stripQuotes appIdEnv) (stripQuotes redirectEnv) state)
        (formUrlEncode (stripQuotes redirectEnv))) ∧
    ((stripQuotes appIdEnv = "" ∨ stripQuotes redirectEnv = "") →
      oauthStart appIdEnv redirectEnv dbg state =
        .configError (stripQuotes appIdEnv != "") (stripQuotes redirectEnv != "")) := by
  constructor
  · intro hid huri hdbg
    refine ⟨by simp [oauthStart, hid, huri, hdbg], ?_, ?_⟩
    · refine ⟨("https://api.planningcenteronline.com/oauth/authorize?client_id=").toList,
        ("&redirect_uri=" ++ formUrlEncode (stripQuotes redirectEnv) ++
          "&response_type=code&scope=calendar&state=" ++ formUrlEncode state).toList, ?_⟩
      simp [authorizeUrl, toList_append, List.append_assoc]
    · refine ⟨("https://api.planningcenteronline.com/oauth/authorize?client_id=" ++
          formUrlEncode (stripQuotes appIdEnv) ++ "&redirect_uri=").toList,
        ("&response_type=code&scope=calendar&state=" ++ formUrlEncode state).toList, ?_⟩
      simp [authorizeUrl, toList_append, List.append_assoc]
  · intro h
    simp only [oauthStart]
    rw [if_pos h]

/-- C7 witness. -/
theorem oauthStart_spec_witness :
    oauthStart (some "abc123") (some "https://cb.example/x") (some "1") "99" =
      .debugJson (authorizeUrl (stripQuotes (some "abc123"))
        (stripQuotes (some "https://cb.example/x")) "99") ∧
    strContains (authorizeUrl (stripQuotes (some "abc123"))
        (stripQuotes (some "https://cb.example/x")) "99")
      (formUrlEncode (stripQuotes (some "abc123"))) ∧
    strContains (authorizeUrl (stripQuotes (some "abc123"))
        (stripQuotes (some "https://cb.example/x")) "99")
      (formUrlEncode (stripQuotes (some "https://cb.example/x"))) :=
  (oauthStart_spec (some "abc123") (some "https://cb.example/x") (some "1") "99").1
    (by decide) (by decide) rfl

end PcSync
